import Mathlib

/-!
Verification development for the Reckon AI ChatBot RAG pipeline.

The first half embeds code that is present in the repository: the Pinecone
write/read boundary of `backend/services/vector_search.py` (the
`store_chunk_embeddings` and `semantic_search` methods, quoted verbatim in the
repository's search-fix document) and the user chat client
(`frontend/user/src/pages/ChatPage.tsx`).  The second half models, from the
specification's words, the RAG components whose code is not part of the
repository checkout (Chunker, Embedder validation, Retriever ranking,
ContextAssembler).
-/

namespace Reckon

/-- Chunk row as passed to the vector-store write boundary
(`store_chunk_embeddings`).  `section_title`, `keywords` and
`confidence_score` are nullable columns. -/
structure Chunk where
  id : Int
  document_id : Int
  chunk_index : Int
  section_title : Option String
  keywords : Option String
  confidence_score : Option ℚ
  chunk_text : String
deriving DecidableEq

/-- Metadata record of a Pinecone vector entry.  The backing store keeps every
numeric scalar as a float, so numeric slots are rationals; any slot may be
absent (`none`). -/
structure PCMetadata where
  chunk_id : Option ℚ
  document_id : Option ℚ
  chunk_index : Option ℚ
  section_title : Option String
  keywords : Option String
  confidence_score : Option ℚ
  industry_type : Option String
  document_type : Option String
  language : Option String
  chunk_text : Option String
deriving DecidableEq

/-- Vector entry as uploaded by `store_chunk_embeddings`. -/
structure PCVector where
  id : String
  values : List ℚ
  metadata : PCMetadata
deriving DecidableEq

/-- Python `int(...)` applied to a float: truncation toward zero. -/
def pyInt (q : ℚ) : Int := if 0 ≤ q then ⌊q⌋ else ⌈q⌉

/-- Python `x or d` on a nullable float: `None` and `0.0` are falsy. -/
def pyOrQ (a : Option ℚ) (d : ℚ) : ℚ :=
  match a with
  | none => d
  | some q => if q = 0 then d else q

/-- Write boundary: the vector built by `store_chunk_embeddings` for one chunk.
Every metadata field is written through an explicit cast (`int(...)`,
`str(...)`, `float(...)`); the ids pass through `int(...)` and are then widened
to float by the schema-less store, which is modelled by the coercion into ℚ. -/
def store_chunk_embeddings (chunk : Chunk) (embedding : List ℚ)
    (doc_industry doc_type doc_language : String) : PCVector :=
  { id := "chunk_" ++ toString chunk.id,
    values := embedding,
    metadata :=
      { chunk_id := some ((chunk.id : ℚ)),
        document_id := some ((chunk.document_id : ℚ)),
        chunk_index := some ((chunk.chunk_index : ℚ)),
        section_title := some (chunk.section_title.getD ""),
        keywords := some (chunk.keywords.getD ""),
        confidence_score := some (pyOrQ chunk.confidence_score (1 / 2)),
        industry_type := some doc_industry,
        document_type := some doc_type,
        language := some doc_language,
        chunk_text := some chunk.chunk_text } }

/-- Ingestion of one document's chunks: each chunk is embedded and uploaded. -/
def store_document_chunks (chunks : List Chunk) (embed : Chunk → List ℚ)
    (doc_industry doc_type doc_language : String) : List PCVector :=
  chunks.map (fun c => store_chunk_embeddings c (embed c) doc_industry doc_type doc_language)

/-- Match returned by the Pinecone query inside `semantic_search`. -/
structure PCMatch where
  score : ℚ
  metadata : PCMetadata
deriving DecidableEq

/-- Retrieval result dict built by `semantic_search` for one match. -/
structure SearchResult where
  chunk_id : Option Int
  document_id : Option Int
  similarity_score : ℚ
  chunk_text : String
deriving DecidableEq

/-- Read boundary of `semantic_search`: `metadata.get` may return `None`;
`int(...)` is applied only under the explicit not-None guard, so an absent id
stays `none` instead of raising. -/
def semantic_search_result (m : PCMatch) : SearchResult :=
  { chunk_id := m.metadata.chunk_id.map pyInt,
    document_id := m.metadata.document_id.map pyInt,
    similarity_score := m.score,
    chunk_text := m.metadata.chunk_text.getD "" }

/-- `semantic_search` builds one result per match, in order; no match is
dropped and no exception is modelled at the read boundary. -/
def semantic_search (ms : List PCMatch) : List SearchResult :=
  ms.map semantic_search_result

/-- Truncation toward zero is the identity on values that entered the store as
integers, even after the store widened them to float. -/
theorem pyInt_intCast (n : Int) : pyInt ((n : ℚ)) = n := by
  unfold pyInt
  split <;> simp

/-- C1: for every ingested chunk, the `chunk_id` and `document_id` read back
from the VectorStore equal, as integers, the values used at write time: the
write boundary stores them via explicit `int()` coercion and the read boundary
coerces them back to `int`, so no float, null or UUID drift is observable in
any retrieval result. -/
theorem chunk_ids_roundtrip (chunk : Chunk) (embedding : List ℚ)
    (doc_industry doc_type doc_language : String) (score : ℚ) :
    (semantic_search_result
        { score := score,
          metadata := (store_chunk_embeddings chunk embedding
            doc_industry doc_type doc_language).metadata }).chunk_id
      = some chunk.id ∧
    (semantic_search_result
        { score := score,
          metadata := (store_chunk_embeddings chunk embedding
            doc_industry doc_type doc_language).metadata }).document_id
      = some chunk.document_id := by
  constructor <;>
    simp [semantic_search_result, store_chunk_embeddings, pyInt_intCast]

/-- C3: every VectorStore entry written for a chunk is keyed by the literal
`chunk_` followed by the chunk's integer id, for every chunk of every ingested
document. -/
theorem vector_key_format (chunks : List Chunk) (embed : Chunk → List ℚ)
    (doc_industry doc_type doc_language : String) (v : PCVector)
    (hv : v ∈ store_document_chunks chunks embed doc_industry doc_type doc_language) :
    ∃ c ∈ chunks, v.id = "chunk_" ++ toString c.id := by
  rcases List.mem_map.mp hv with ⟨c, hc, rfl⟩
  exact ⟨c, hc, rfl⟩

/-- Concrete chunk used by witnesses: the example row from the search-fix
document (`Chunk ID: 2`, `Document ID: 2`). -/
def demoChunk : Chunk :=
  { id := 2, document_id := 2, chunk_index := 0, section_title := none,
    keywords := none, confidence_score := none,
    chunk_text := "ReckonSales CRM Platform Features" }

theorem vector_key_format_witness :
    ∃ c ∈ [demoChunk],
      (store_chunk_embeddings demoChunk [] "retail" "product_guide" "en").id
        = "chunk_" ++ toString c.id :=
  vector_key_format [demoChunk] (fun _ => []) "retail" "product_guide" "en"
    (store_chunk_embeddings demoChunk [] "retail" "product_guide" "en")
    (by simp [store_document_chunks])

/-- C8: at the semantic-search read boundary, a match whose metadata lacks
`chunk_id` is still returned, with that field `none`: the `int()` coercion sits
under a not-None guard, so a missing id never raises and never causes the match
to be dropped. -/
theorem missing_id_preserved (ms : List PCMatch) (m : PCMatch)
    (hm : m ∈ ms) (hid : m.metadata.chunk_id = none) :
    (semantic_search ms).length = ms.length ∧
    semantic_search_result m ∈ semantic_search ms ∧
    (semantic_search_result m).chunk_id = none ∧
    (semantic_search_result m).similarity_score = m.score := by
  refine ⟨List.length_map _ _, List.mem_map_of_mem _ hm, ?_, rfl⟩
  simp [semantic_search_result, hid]

/-- Concrete match used by the C8 witness: score present, all metadata slots
absent. -/
def demoMatch : PCMatch :=
  { score := 777 / 1000,
    metadata :=
      { chunk_id := none, document_id := none, chunk_index := none,
        section_title := none, keywords := none, confidence_score := none,
        industry_type := none, document_type := none, language := none,
        chunk_text := none } }

theorem missing_id_preserved_witness :
    (semantic_search [demoMatch]).length = [demoMatch].length ∧
    semantic_search_result demoMatch ∈ semantic_search [demoMatch] ∧
    (semantic_search_result demoMatch).chunk_id = none ∧
    (semantic_search_result demoMatch).similarity_score = demoMatch.score :=
  missing_id_preserved [demoMatch] demoMatch (by simp) (by rfl)

/-! User chat client (`frontend/user/src/pages/ChatPage.tsx`). -/

/-- Message record as displayed by the chat interface; only the fields the
client sets in `handleSendMessage` are modelled.  `confidence` is the optional
number field of the `Message` type. -/
structure DisplayMessage where
  content : String
  sender : String
  confidence : Option Int
  responseTime : ℚ
  status : Option String
deriving DecidableEq

/-- JavaScript truthiness of an optional string: `undefined`, `null` and the
empty string are falsy. -/
def jsTruthyS (s : Option String) : Bool :=
  match s with
  | none => false
  | some t => t ≠ ""

/-- JavaScript `a || b` on optional strings. -/
def jsOrS (a b : Option String) : Option String :=
  if jsTruthyS a then a else b

/-- JavaScript `x || d` on an optional number: `undefined`, `null` and `0` are
falsy. -/
def jsOrQ (a : Option ℚ) (d : ℚ) : ℚ :=
  match a with
  | none => d
  | some q => if q = 0 then d else q

/-- JavaScript `Math.round`: round half toward positive infinity. -/
def jsRound (q : ℚ) : Int := ⌊q + 1 / 2⌋

/-- Confidence number shown for a successful response:
`response.confidence ? Math.round(response.confidence * 100) : 90`.  The
ternary tests JavaScript truthiness, so an absent field and a zero field both
take the `90` branch. -/
def displayedConfidence (confidence : Option ℚ) : Int :=
  match confidence with
  | none => 90
  | some c => if c = 0 then 90 else jsRound (c * 100)

/-- Shape of the send-message API response as read by the client:
`assistant_response?.message_text`, `response`, `confidence`,
`processing_time_ms`, plus the stringified response used in the error text. -/
structure ApiResponse where
  assistant_message_text : Option String
  response : Option String
  confidence : Option ℚ
  processing_time_ms : Option ℚ
  stringified : String
deriving DecidableEq

/-- Assistant message built in the success branch of `handleSendMessage`. -/
def successMessage (r : ApiResponse) : DisplayMessage :=
  { content := (jsOrS (jsOrS r.assistant_message_text r.response)
      (some ("API Error: No response received. Response: " ++ r.stringified))).getD "",
    sender := "assistant",
    confidence := some (displayedConfidence r.confidence),
    responseTime := jsOrQ r.processing_time_ms 100,
    status := some "delivered" }

/-- Assistant message built in the catch branch of `handleSendMessage`:
`API Error: <error.message>. Please check console for details.` with
confidence `0` and status `failed`.  The argument is
`error instanceof Error ? error.message : 'Unknown error'`. -/
def errorMessage (errMsg : Option String) : DisplayMessage :=
  { content := "API Error: " ++ errMsg.getD "Unknown error"
      ++ ". Please check console for details.",
    sender := "assistant",
    confidence := some 0,
    responseTime := 0,
    status := some "failed" }

/-- API phase of `handleSendMessage`: on a resolved call the success message is
appended, on a rejected call the catch branch appends the error message; both
branches clear the typing flag and neither rethrows. -/
def apiPhase (messages : List DisplayMessage)
    (outcome : Except (Option String) ApiResponse) :
    List DisplayMessage × Bool :=
  match outcome with
  | Except.ok r => (messages ++ [successMessage r], false)
  | Except.error e => (messages ++ [errorMessage e], false)

/-- C2 counterexample: when the backend call fails with message
`timeout of 15000ms exceeded`, the externally visible answer text embeds that
raw error message verbatim, so raw exceptions do reach the displayed answer;
there is no templated rule-based fallback and no degraded flag, only
status `failed`. -/
theorem raw_error_exposed :
    (errorMessage (some "timeout of 15000ms exceeded")).content
      = "API Error: " ++ "timeout of 15000ms exceeded"
          ++ ". Please check console for details." ∧
    (errorMessage (some "timeout of 15000ms exceeded")).confidence = some 0 ∧
    (errorMessage (some "timeout of 15000ms exceeded")).status = some "failed" :=
  ⟨rfl, rfl, rfl⟩

/-- C2 amended: when the generative backend call fails, the client catches the
error and never rethrows: the API phase deterministically appends an assistant
message with confidence `0` and status `failed` whose text is
`API Error: <error.message>. Please check console for details.` — the raw error
message is surfaced inside the visible answer text instead of a rule-based
fallback, and no degraded flag exists. -/
theorem error_branch_behaviour (messages : List DisplayMessage)
    (errMsg : Option String) :
    apiPhase messages (Except.error errMsg)
      = (messages ++ [errorMessage errMsg], false) ∧
    (errorMessage errMsg).confidence = some 0 ∧
    (errorMessage errMsg).status = some "failed" ∧
    (errorMessage errMsg).content
      = "API Error: " ++ errMsg.getD "Unknown error"
          ++ ". Please check console for details." :=
  ⟨rfl, rfl, rfl, rfl⟩

/-- C9 counterexample: a backend-supplied confidence of `0` is displayed as
`90`, not as `round(0 * 100) = 0`, because the JavaScript ternary treats `0` as
falsy. -/
theorem zero_confidence_displayed_as_90 :
    displayedConfidence (some 0) = 90 ∧ jsRound (0 * 100) = 0 ∧ (90 : Int) ≠ 0 := by
  refine ⟨rfl, ?_, by decide⟩
  unfold jsRound
  norm_num

/-- C9 amended: the displayed confidence equals `Math.round(confidence * 100)`
when the backend supplies a nonzero confidence, and defaults to `90` when the
field is absent or zero. -/
theorem displayed_confidence_formula (c : ℚ) (hc : c ≠ 0) :
    displayedConfidence (some c) = jsRound (c * 100) ∧
    displayedConfidence none = 90 ∧
    displayedConfidence (some 0) = 90 := by
  refine ⟨?_, rfl, rfl⟩
  simp [displayedConfidence, hc]

theorem displayed_confidence_formula_witness :
    displayedConfidence (some (777 / 1000)) = jsRound ((777 / 1000) * 100) ∧
    displayedConfidence none = 90 ∧
    displayedConfidence (some 0) = 90 :=
  displayed_confidence_formula (777 / 1000) (by norm_num)

/-- Session-creation outcome as seen by `initializeSession`. -/
structure ChatSession where
  id : Int
deriving DecidableEq

/-- State produced by `initializeSession`: the session id finally set, the
pending initial message, and the assistant messages appended to the
conversation by this function (the catch branch only logs to the console). -/
structure SessionInit where
  sessionId : Option Int
  pendingMessage : Option String
  messagesAppended : List DisplayMessage
deriving DecidableEq

/-- `initializeSession` from `ChatPage.tsx`: on success the backend session id
is used; on failure the catch branch substitutes `Date.now()` as a fallback
session id, keeps any pending initial message, and shows nothing to the
user. -/
def initializeSession (createResult : Except String ChatSession)
    (initialMessage : Option String) (now : Int) : SessionInit :=
  match createResult with
  | Except.ok s =>
      { sessionId := some s.id, pendingMessage := initialMessage,
        messagesAppended := [] }
  | Except.error _ =>
      { sessionId := some now, pendingMessage := initialMessage,
        messagesAppended := [] }

/-- Null guard at the top of `handleSendMessage`: `if (!sessionId) return` —
sending is blocked only when the session id is unset (or the falsy `0`). -/
def sendAllowed (sessionId : Option Int) : Bool :=
  match sessionId with
  | none => false
  | some n => n ≠ 0

/-- C10: if chat-session creation fails, the client substitutes the current
`Date.now()` timestamp as session id and continues: the pending message is
kept, no message is surfaced to the user, and the send-message guard passes
under the fallback id. -/
theorem session_fallback (err : String) (initialMessage : Option String)
    (now : Int) (hnow : 0 < now) :
    (initializeSession (Except.error err) initialMessage now).sessionId
      = some now ∧
    (initializeSession (Except.error err) initialMessage now).pendingMessage
      = initialMessage ∧
    (initializeSession (Except.error err) initialMessage now).messagesAppended
      = [] ∧
    sendAllowed (initializeSession (Except.error err) initialMessage now).sessionId
      = true := by
  refine ⟨rfl, rfl, rfl, ?_⟩
  simp [initializeSession, sendAllowed]
  omega

theorem session_fallback_witness :
    (initializeSession (Except.error "Network Error")
        (some "What are the advantages of ERP?") 1730000000000).sessionId
      = some 1730000000000 ∧
    (initializeSession (Except.error "Network Error")
        (some "What are the advantages of ERP?") 1730000000000).pendingMessage
      = some "What are the advantages of ERP?" ∧
    (initializeSession (Except.error "Network Error")
        (some "What are the advantages of ERP?") 1730000000000).messagesAppended
      = [] ∧
    sendAllowed (initializeSession (Except.error "Network Error")
        (some "What are the advantages of ERP?") 1730000000000).sessionId
      = true :=
  session_fallback "Network Error" (some "What are the advantages of ERP?")
    1730000000000 (by norm_num)

/-! Spec-modelled RAG components.  The backend service code (Retriever,
Embedder, Chunker, ContextAssembler) is not part of the repository checkout;
the definitions below follow the specification's words. -/

/-- Error taxonomy of the spec (§7), restricted to the kinds the claims use. -/
inductive RagError where
  | EmbeddingError : RagError
  | IngestionError : RagError
deriving DecidableEq

/-- RetrievalResult of the spec's data model (§3). -/
structure RetrievalResult where
  chunk_id : Int
  document_id : Int
  chunk_index : Int
  similarity_score : ℚ
  chunk_text : String
deriving DecidableEq

/-- Modelled from the spec: the Retriever's ranking order — descending
`similarity_score`, ties broken by ascending `chunk_index`. -/
def rankLE (a b : RetrievalResult) : Prop :=
  b.similarity_score < a.similarity_score ∨
    (a.similarity_score = b.similarity_score ∧ a.chunk_index ≤ b.chunk_index)

instance : DecidableRel rankLE := fun a b => by
  unfold rankLE
  infer_instance

instance : IsTotal RetrievalResult rankLE := by
  constructor
  intro a b
  rcases lt_trichotomy a.similarity_score b.similarity_score with h | h | h
  · exact Or.inr (Or.inl h)
  · rcases le_total a.chunk_index b.chunk_index with hi | hi
    · exact Or.inl (Or.inr ⟨h, hi⟩)
    · exact Or.inr (Or.inr ⟨h.symm, hi⟩)
  · exact Or.inl (Or.inl h)

instance : IsTrans RetrievalResult rankLE := by
  constructor
  intro a b c hab hbc
  rcases hab with hab | ⟨hab, hia⟩ <;> rcases hbc with hbc | ⟨hbc, hib⟩
  · exact Or.inl (hbc.trans hab)
  · exact Or.inl (hbc ▸ hab)
  · exact Or.inl (hab ▸ hbc)
  · exact Or.inr ⟨hab.trans hbc, hia.trans hib⟩

/-- Modelled from the spec: merge of semantic and lexical results,
deduplicating by `chunk_id` and preferring the semantic entry when a chunk
appears in both. -/
def mergeResults (semantic lexical : List RetrievalResult) : List RetrievalResult :=
  semantic ++ lexical.filter (fun r => ¬ semantic.any (fun s => s.chunk_id = r.chunk_id))

/-- Modelled from the spec: `retrieve` ranks the merged results by descending
score with ascending `chunk_index` as tie break. -/
def retrieve (semantic lexical : List RetrievalResult) : List RetrievalResult :=
  List.insertionSort rankLE (mergeResults semantic lexical)

/-- C4: every RetrievalResult list returned by the Retriever is sorted by
`similarity_score` descending, ties broken by ascending `chunk_index`, for
every query and index state (modelled by arbitrary semantic and lexical match
lists). -/
theorem retrieve_sorted (semantic lexical : List RetrievalResult) :
    (retrieve semantic lexical).Pairwise (fun a b =>
      b.similarity_score < a.similarity_score ∨
        (a.similarity_score = b.similarity_score ∧ a.chunk_index ≤ b.chunk_index)) :=
  List.sorted_insertionSort rankLE (mergeResults semantic lexical)

/-- Backend float value as seen by the Embedder's validator: a NaN marker or a
numeric value. -/
inductive FVal where
  | nan : FVal
  | val : ℚ → FVal
deriving DecidableEq

/-- NaN test on a backend float value. -/
def FVal.isNaN : FVal → Bool
  | FVal.nan => true
  | FVal.val _ => false

/-- Zero test on a backend float value (NaN is not zero). -/
def FVal.isZero : FVal → Bool
  | FVal.nan => false
  | FVal.val q => decide (q = 0)

theorem isNaN_eq_true (x : FVal) : x.isNaN = true ↔ x = FVal.nan := by
  cases x <;> simp [FVal.isNaN]

theorem isZero_eq_true (x : FVal) : x.isZero = true ↔ x = FVal.val 0 := by
  cases x <;> simp [FVal.isZero]

/-- Modelled from the spec: the Embedder's validation of the vector returned by
the backend — the embedding backends themselves are not part of the repository
checkout.  An all-zero or NaN-containing vector raises `EmbeddingError` rather
than being returned for indexing. -/
def validate_embedding (v : List FVal) : Except RagError (List FVal) :=
  if v.any FVal.isNaN || v.all FVal.isZero then Except.error RagError.EmbeddingError
  else Except.ok v

/-- C5: for every backend vector, the Embedder raises `EmbeddingError` exactly
when the vector contains a NaN or is all-zero; otherwise the vector is returned
unchanged for indexing. -/
theorem embedder_rejects_degenerate (v : List FVal) :
    validate_embedding v = Except.error RagError.EmbeddingError ↔
      (∃ x ∈ v, x = FVal.nan) ∨ ∀ x ∈ v, x = FVal.val 0 := by
  constructor
  · intro he
    unfold validate_embedding at he
    split at he
    case isTrue h =>
      rcases Bool.or_eq_true_iff.mp h with h1 | h2
      · left
        rcases List.any_eq_true.mp h1 with ⟨x, hx, hxn⟩
        exact ⟨x, hx, (isNaN_eq_true x).mp hxn⟩
      · right
        intro x hx
        exact (isZero_eq_true x).mp (List.all_eq_true.mp h2 x hx)
    case isFalse h => cases he
  · intro hr
    have hb : (v.any FVal.isNaN || v.all FVal.isZero) = true := by
      rcases hr with ⟨x, hx, hxn⟩ | hall
      · exact Bool.or_eq_true_iff.mpr (Or.inl (List.any_eq_true.mpr
          ⟨x, hx, (isNaN_eq_true x).mpr hxn⟩))
      · exact Bool.or_eq_true_iff.mpr (Or.inr (List.all_eq_true.mpr
          fun x hx => (isZero_eq_true x).mpr (hall x hx)))
    simp [validate_embedding, hb]

/-- Modelled from the spec: the Chunker's overlapping windows — the Chunker
implementation is not part of the repository checkout.  The window at `pos`
holds the next `size` characters; the window start advances by `step`
(`chunk_size - overlap`), so each window after the first begins with the
trailing `overlap` characters of its predecessor.  The boundary-snapping
preference of §4.1 is abstracted to fixed-size windows, which is what the
overlap sentence constrains.  `fuel` bounds the recursion and is initialised to
the text length, an upper bound on the number of windows. -/
def chunkWindows (text : List Char) (size step : Nat) : Nat → Nat → List (List Char)
  | _, 0 => []
  | pos, Nat.succ fuel =>
      if text.length ≤ pos + size then [(text.drop pos).take size]
      else (text.drop pos).take size :: chunkWindows text size step (pos + step) fuel

/-- Modelled from the spec: `chunk(text, chunk_size, overlap)` — empty or
whitespace-only input yields an `IngestionError` instead of chunks. -/
def chunk (text : List Char) (chunk_size overlap : Nat) :
    Except RagError (List (List Char)) :=
  if text.all Char.isWhitespace then Except.error RagError.IngestionError
  else Except.ok (chunkWindows text chunk_size (chunk_size - overlap) 0 text.length)

theorem chunkWindows_head (text : List Char) (size step : Nat) :
    ∀ fuel pos, ∀ b ∈ (chunkWindows text size step pos fuel).head?,
      b = (text.drop pos).take size := by
  intro fuel
  cases fuel with
  | zero =>
      intro pos b hb
      simp [chunkWindows] at hb
  | succ n =>
      intro pos b hb
      unfold chunkWindows at hb
      split at hb <;> simp at hb <;> exact hb.symm

theorem window_overlap (text : List Char) (size overlap pos : Nat)
    (h : pos + size < text.length) :
    ((text.drop (pos + (size - overlap))).take size).take overlap
      = ((text.drop pos).take size).drop
          (((text.drop pos).take size).length - overlap) := by
  have hlen : ((text.drop pos).take size).length = size := by
    simp [List.length_take, List.length_drop]
    omega
  rw [hlen, List.drop_take, List.drop_drop, List.take_take,
    show min overlap size = size - (size - overlap) from by omega]

theorem chunkWindows_chain (text : List Char) (size overlap : Nat) :
    ∀ fuel pos, (chunkWindows text size (size - overlap) pos fuel).Chain'
      (fun a b => b.take overlap = a.drop (a.length - overlap)) := by
  intro fuel
  induction fuel with
  | zero =>
      intro pos
      simp [chunkWindows]
  | succ n ih =>
      intro pos
      unfold chunkWindows
      split
      case isTrue h => simp
      case isFalse h =>
        rw [List.chain'_cons']
        constructor
        · intro b hb
          rw [chunkWindows_head text size (size - overlap) n (pos + (size - overlap)) b hb]
          exact window_overlap text size overlap pos (by omega)
        · exact ih (pos + (size - overlap))

/-- C6: for every document text and every `chunk_size` and `overlap`, every
chunk after the first in the Chunker's output begins with exactly the trailing
`overlap` characters of the previous chunk's text. -/
theorem chunk_overlap_property (text : List Char) (chunk_size overlap : Nat)
    (L : List (List Char)) (h : chunk text chunk_size overlap = Except.ok L) :
    L.Chain' (fun a b => b.take overlap = a.drop (a.length - overlap)) := by
  unfold chunk at h
  split at h
  · cases h
  · cases h
    exact chunkWindows_chain text chunk_size overlap text.length 0

theorem chunk_overlap_property_witness :
    (chunkWindows ['a', 'b', 'c', 'd', 'e', 'f'] 4 2 0 6).Chain'
      (fun a b => b.take 2 = a.drop (a.length - 2)) :=
  chunk_overlap_property ['a', 'b', 'c', 'd', 'e', 'f'] 4 2
    (chunkWindows ['a', 'b', 'c', 'd', 'e', 'f'] 4 2 0 6) rfl

/-- Modelled from the spec: the ContextAssembler's greedy selection — its
implementation is not part of the repository checkout.  Ranked chunk texts are
appended while the running character total stays within the budget; the loop
stops at the first chunk that would exceed it.  (Truncating the final chunk is
permitted but optional in §4.5 and is not modelled.) -/
def selectChunks (budget : Nat) : List RetrievalResult → Nat → List RetrievalResult
  | [], _ => []
  | r :: rest, used =>
      if used + r.chunk_text.length ≤ budget then
        r :: selectChunks budget rest (used + r.chunk_text.length)
      else []

/-- Modelled from the spec: distinct contributing document ids in first-seen
order, for citation. -/
def dedupSources : List Int → List Int
  | [] => []
  | d :: rest => d :: (dedupSources rest).filter (fun x => x ≠ d)

/-- Modelled from the spec: `assemble(results, budget)` returns the packed
context text and the ordered distinct source document ids. -/
def assemble (results : List RetrievalResult) (budget : Nat) : String × List Int :=
  (String.join ((selectChunks budget results 0).map fun r => r.chunk_text),
   dedupSources ((selectChunks budget results 0).map fun r => r.document_id))

/-- Modelled from the spec: with the budget constraint removed the greedy loop
appends every ranked chunk, so the number of chunks included is the number of
results. -/
def chunksIncludedNoBudget (results : List RetrievalResult) : Nat := results.length

theorem length_join_aux (l : List String) :
    ∀ acc : String, (l.foldl (fun r s => r ++ s) acc).length
      = acc.length + (l.map String.length).sum := by
  induction l with
  | nil => intro acc; simp
  | cons s rest ih =>
      intro acc
      simp [List.foldl_cons, ih (acc ++ s), String.length_append]
      omega

theorem length_join_strings (l : List String) :
    (String.join l).length = (l.map String.length).sum := by
  have h := length_join_aux l ""
  simpa [String.join] using h

theorem selectChunks_budget (budget : Nat) :
    ∀ (l : List RetrievalResult) (used : Nat), used ≤ budget →
      used + ((selectChunks budget l used).map fun r => r.chunk_text.length).sum
        ≤ budget := by
  intro l
  induction l with
  | nil =>
      intro used h
      simpa [selectChunks] using h
  | cons r rest ih =>
      intro used h
      unfold selectChunks
      split
      case isTrue hfit =>
        have hr := ih (used + r.chunk_text.length) hfit
        simp only [List.map_cons, List.sum_cons]
        omega
      case isFalse hfit =>
        simpa using h

theorem selectChunks_length (budget : Nat) :
    ∀ (l : List RetrievalResult) (used : Nat),
      (selectChunks budget l used).length ≤ l.length := by
  intro l
  induction l with
  | nil => intro used; simp [selectChunks]
  | cons r rest ih =>
      intro used
      unfold selectChunks
      split
      case isTrue hfit => simpa using ih (used + r.chunk_text.length)
      case isFalse hfit => simp

/-- C7: for every ranked result list and every budget, the assembled context
text never exceeds the budget, and assembling with the budget constraint
removed includes at least as many chunks as assembling with it. -/
theorem assemble_within_budget (results : List RetrievalResult) (budget : Nat) :
    (assemble results budget).1.length ≤ budget ∧
    (selectChunks budget results 0).length ≤ chunksIncludedNoBudget results := by
  constructor
  · have h := selectChunks_budget budget results 0 (Nat.zero_le budget)
    have hj : (assemble results budget).1.length
        = (((selectChunks budget results 0).map fun r => r.chunk_text).map
            String.length).sum := by
      simp [assemble, length_join_strings]
    rw [hj, List.map_map]
    simpa using h
  · exact selectChunks_length budget results 0

end Reckon
